import Mathlib

/-!
Shallow embedding of `src/texture.rs` from the `egui-directx11` repository:
the `TexturePool` that reconciles egui's texture deltas with Direct3D 11
resources, plus the native-texture registry.

Modelling choices:
* `Color32` is an opaque pixel value, modelled as `Nat` (the code only ever
  copies pixels, never inspects their bytes).
* GPU handles (`ID3D11Texture2D`, `ID3D11ShaderResourceView`) are modelled as
  `Nat` identities; the `ID3D11Device` is a `Device` record of two partial
  functions (`none` = the D3D call returns an error HRESULT).
* `HashMap<u64, _>` is modelled as an association list with `findA` /
  `insertA` / `eraseA`; `insertA` replaces any existing binding for the key.
* A Rust `windows::core::Result` error propagated with `?` is `UpdateResult.err`;
  a Rust panic (`unwrap()` on an `Err`, or an out-of-bounds slice index) is
  `UpdateResult.panic`.
* `ctx.Map(..., D3D11_MAP_WRITE_DISCARD, ...)` is modelled by the boolean
  `ctxMapOk`; on success the mapped slice is created with length
  `old.pixels.len()` and `copy_from_nonoverlapping` immediately overwrites all
  of it with `old.pixels`, so after the copy step the mapped buffer is exactly
  `old.pixels` (the pre-copy discard-map junk is fully overwritten).
-/

abbrev Color32 := Nat

/-- egui's `ColorImage`: a width, a height, and a row-major pixel vector. -/
structure ColorImage where
  width : Nat
  height : Nat
  pixels : List Color32
deriving DecidableEq, Repr

/-- egui's `ImageDelta`: `pos = some (nx, ny)` is a partial patch at column
offset `nx`, row offset `ny`; `pos = none` is a full replace. -/
structure ImageDelta where
  pos : Option (Nat × Nat)
  image : ColorImage
deriving DecidableEq, Repr

/-- egui's `TextureId`. -/
inductive TextureId where
  | Managed : Nat → TextureId
  | User : Nat → TextureId
deriving DecidableEq, Repr

/-- egui's `TexturesDelta`: the per-frame `set` list and `free` list. -/
structure TexturesDelta where
  set : List (TextureId × ImageDelta)
  free : List TextureId
deriving DecidableEq, Repr

/-- `struct Texture` from texture.rs: GPU texture handle, SRV handle, the
CPU-side shadow pixel vector, and the texture width. -/
structure Texture where
  tex : Nat
  srv : Nat
  pixels : List Color32
  width : Nat
deriving DecidableEq, Repr

/-- The `ID3D11Device` capability surface used by the pool:
`CreateTexture2D` (given the desc's width and height) and
`CreateShaderResourceView` (given the texture handle); `none` models a failed
HRESULT. -/
structure Device where
  createTexture2D : Nat → Nat → Option Nat
  createShaderResourceView : Nat → Option Nat

/-- `pub struct TexturePool` (the `device` handle lives outside the state and
is passed to each operation; it is cloned, never mutated, in the source). -/
structure TexturePool where
  pool : List (Nat × Texture)
  native_pool : List (Nat × (Nat × Nat))
  next_native_idx : Nat
deriving DecidableEq, Repr

/-- Outcome of an operation: `ok`, a propagated `windows::core::Result` error
(`err`), or a Rust panic (`panic`). -/
inductive UpdateResult (α : Type) where
  | ok : α → UpdateResult α
  | err : UpdateResult α
  | panic : UpdateResult α
deriving DecidableEq, Repr

/-- `HashMap::get`. -/
def findA {α : Type} : List (Nat × α) → Nat → Option α
  | [], _ => none
  | (k, v) :: rest, key => if k = key then some v else findA rest key

/-- `HashMap::remove` (also drops the value). -/
def eraseA {α : Type} : List (Nat × α) → Nat → List (Nat × α)
  | [], _ => []
  | (k, v) :: rest, key =>
    if k = key then eraseA rest key else (k, v) :: eraseA rest key

/-- `HashMap::insert`: the new binding replaces any old one for the key. -/
def insertA {α : Type} (m : List (Nat × α)) (key : Nat) (v : α) :
    List (Nat × α) :=
  (key, v) :: eraseA m key

/-- `TexturePool::new`. -/
def TexturePool.new : TexturePool :=
  { pool := [], native_pool := [], next_native_idx := 0 }

/-- `TexturePool::get_srv`: dispatch on the id's tag to the matching map. -/
def TexturePool.get_srv (p : TexturePool) (tid : TextureId) : Option Nat :=
  match tid with
  | .Managed id => (findA p.pool id).map (fun t => t.srv)
  | .User id => (findA p.native_pool id).map (fun e => e.2)

/-- The linear destination index `whole = (ny + y) * old.width + nx + x`
computed in the partial-update loop. -/
def wholeIdx (W nx ny : Nat) (yx : Nat × Nat) : Nat :=
  (ny + yx.1) * W + nx + yx.2

/-- The source index `frac = y * f.width() + x` in the patch image. -/
def fracIdx (fw : Nat) (yx : Nat × Nat) : Nat :=
  yx.1 * fw + yx.2

/-- One iteration of the inner loop body:
`old.pixels[whole] = f.pixels[frac]; data[whole] = f.pixels[frac];`.
Rust indexing panics (here: `none`) when an index is out of bounds. -/
def stepWrite (W nx ny fw : Nat) (fp : List Color32)
    (st : List Color32 × List Color32) (yx : Nat × Nat) :
    Option (List Color32 × List Color32) :=
  if fracIdx fw yx < fp.length ∧ wholeIdx W nx ny yx < st.1.length ∧
      wholeIdx W nx ny yx < st.2.length then
    some (st.1.set (wholeIdx W nx ny yx) (fp.getD (fracIdx fw yx) 0),
          st.2.set (wholeIdx W nx ny yx) (fp.getD (fracIdx fw yx) 0))
  else none

/-- The row-major iteration order of
`for y in 0..f.height() { for x in 0..f.width() { ... } }`. -/
def patchPairs (h w : Nat) : List (Nat × Nat) :=
  (List.range h).flatMap (fun y => (List.range w).map (fun x => (y, x)))

/-- Runs the loop body over a list of `(y, x)` pairs, threading the
`(shadow, mapped)` pair of buffers; `none` models the panic aborting the
loop. -/
def writeAll (W nx ny fw : Nat) (fp : List Color32) :
    List (Nat × Nat) → List Color32 × List Color32 →
    Option (List Color32 × List Color32)
  | [], st => some st
  | yx :: rest, st =>
    match stepWrite W nx ny fw fp st yx with
    | some st' => writeAll W nx ny fw fp rest st'
    | none => none

/-- The whole overlay loop of `update_partial` for an `ImageData::Color`. -/
def applyPatch (W nx ny : Nat) (f : ColorImage)
    (st : List Color32 × List Color32) :
    Option (List Color32 × List Color32) :=
  writeAll W nx ny f.width f.pixels (patchPairs f.height f.width) st

/-- `TexturePool::update_partial`. `ctxMapOk = false` models `ctx.Map`
returning an error (propagated with `?`). On a successful discard map, the
mapped slice (length `old.pixels.len()`) is first entirely overwritten by a
copy of `old.pixels` (`copy_from_nonoverlapping`), so the loop starts from
the state `(old.pixels, old.pixels)`. On success, returns the updated
`Texture` together with the final contents of the mapped GPU buffer at the
`Unmap` call. -/
def update_partial (ctxMapOk : Bool) (old : Texture) (image : ColorImage)
    (nx ny : Nat) : UpdateResult (Texture × List Color32) :=
  if ctxMapOk then
    match applyPatch old.width nx ny image (old.pixels, old.pixels) with
    | some (pix, data) => .ok ({ old with pixels := pix }, data)
    | none => .panic
  else .err

/-- `TexturePool::create_texture`: build the dynamic texture from the image's
dimensions and initial pixels, derive an SRV, retain the pixels as shadow. -/
def create_texture (device : Device) (data : ColorImage) :
    UpdateResult Texture :=
  let width := data.width
  let pixels := data.pixels
  match device.createTexture2D data.width data.height with
  | none => .err
  | some tex =>
    match device.createShaderResourceView tex with
    | none => .err
    | some srv => .ok { tex := tex, srv := srv, pixels := pixels, width := width }

/-- Observable outcome of one `update` call: the new pool state, the ids for
which a "non-existing texture" warning was logged, and the number of device
texture-creation calls attempted. -/
structure UpdateOut where
  pool : TexturePool
  warned : List Nat
  devCalls : Nat
deriving DecidableEq, Repr

/-- The body of `update`'s set loop for one managed `(tid, delta)` entry. -/
def updateStep (device : Device) (ctxMapOk : Bool) (acc : UpdateOut)
    (e : Nat × ImageDelta) : UpdateResult UpdateOut :=
  match e.2.pos with
  | some (nx, ny) =>
    match findA acc.pool.pool e.1 with
    | some tex =>
      match update_partial ctxMapOk tex e.2.image nx ny with
      | .ok (tex', _) =>
        .ok { acc with
              pool := { acc.pool with pool := insertA acc.pool.pool e.1 tex' } }
      | .err => .err
      | .panic => .panic
    | none => .ok { acc with warned := acc.warned ++ [e.1] }
  | none =>
    if 0 < e.2.image.width ∧ 0 < e.2.image.height then
      match create_texture device e.2.image with
      | .ok t =>
        .ok { acc with
              pool := { acc.pool with pool := insertA acc.pool.pool e.1 t },
              devCalls := acc.devCalls + 1 }
      | .err => .err
      | .panic => .panic
    else .ok acc

/-- `update`'s set loop over the (already filtered) managed entries. -/
def processSet (device : Device) (ctxMapOk : Bool) :
    List (Nat × ImageDelta) → UpdateOut → UpdateResult UpdateOut
  | [], acc => .ok acc
  | e :: rest, acc =>
    match updateStep device ctxMapOk acc e with
    | .ok acc' => processSet device ctxMapOk rest acc'
    | .err => .err
    | .panic => .panic

/-- The `filter_map` at the head of `update`: keep `Managed` set entries,
silently drop `User` ones. -/
def managedSets (set : List (TextureId × ImageDelta)) :
    List (Nat × ImageDelta) :=
  set.filterMap (fun e => match e.1 with
    | .Managed id => some (id, e.2)
    | .User _ => none)

/-- `update`'s free loop: remove `Managed` ids, ignore `User` ids. -/
def freeManaged (p : TexturePool) (free : List TextureId) : TexturePool :=
  free.foldl (fun q tid => match tid with
    | .Managed id => { q with pool := eraseA q.pool id }
    | .User _ => q) p

/-- `TexturePool::update`. -/
def TexturePool.update (p : TexturePool) (device : Device) (ctxMapOk : Bool)
    (delta : TexturesDelta) : UpdateResult UpdateOut :=
  match processSet device ctxMapOk (managedSets delta.set)
      { pool := p, warned := [], devCalls := 0 } with
  | .ok acc => .ok { acc with pool := freeManaged acc.pool delta.free }
  | .err => .err
  | .panic => .panic

/-- `TexturePool::register_native_texture`: allocate the next native id,
derive an SRV — note the source calls `.unwrap()` on the
`CreateShaderResourceView` result, so a failed view creation panics — store
the `(texture, srv)` pair and return a `User` id. -/
def TexturePool.register_native_texture (p : TexturePool) (device : Device)
    (texture : Nat) : UpdateResult (TexturePool × TextureId) :=
  let id := p.next_native_idx
  let p1 : TexturePool := { p with next_native_idx := p.next_native_idx + 1 }
  match device.createShaderResourceView texture with
  | none => .panic
  | some srv =>
    .ok ({ p1 with native_pool := insertA p1.native_pool id (texture, srv) },
         .User id)

/-- `TexturePool::remove_native_texture`: a `Managed` id panics
("Cannot manually remove managed textures"); a `User` id removes the entry
and returns the original texture handle, or `none` if absent. -/
def TexturePool.remove_native_texture (p : TexturePool) (tid : TextureId) :
    UpdateResult (TexturePool × Option Nat) :=
  match tid with
  | .Managed _ => .panic
  | .User id =>
    .ok ({ p with native_pool := eraseA p.native_pool id },
         (findA p.native_pool id).map (fun e => e.1))

/-- A call sequence against the native registry. -/
inductive NativeOp where
  | reg : Nat → NativeOp
  | rem : TextureId → NativeOp
deriving DecidableEq, Repr

/-- Runs a sequence of native-registry calls, collecting the ids returned by
the registrations; `none` if any call panics. -/
def runOps (device : Device) :
    List NativeOp → TexturePool → Option (TexturePool × List TextureId)
  | [], p => some (p, [])
  | .reg t :: rest, p =>
    match p.register_native_texture device t with
    | .ok (p', tid) =>
      match runOps device rest p' with
      | some (q, ids) => some (q, tid :: ids)
      | none => none
    | _ => none
  | .rem tid :: rest, p =>
    match p.remove_native_texture tid with
    | .ok (p', _) => runOps device rest p'
    | _ => none

/-- Number of registrations in a call sequence. -/
def countRegs : List NativeOp → Nat
  | [] => 0
  | .reg _ :: rest => countRegs rest + 1
  | .rem _ :: rest => countRegs rest

/-- Applies a sequence of single-entry full-replace deltas for the same
managed id, one `update` call per image. -/
def runReplaces (device : Device) (ctxMapOk : Bool) (id : Nat) :
    List ColorImage → TexturePool → UpdateResult TexturePool
  | [], p => .ok p
  | img :: rest, p =>
    match p.update device ctxMapOk
        { set := [(.Managed id, { pos := none, image := img })], free := [] } with
    | .ok out => runReplaces device ctxMapOk id rest out.pool
    | .err => .err
    | .panic => .panic

/-- A device on which every creation call succeeds (deterministic handles). -/
def devOk : Device :=
  { createTexture2D := fun w h => some (w * 1000 + h),
    createShaderResourceView := fun t => some (t + 1) }

/-- A device on which shader-resource-view creation always fails. -/
def devBadSrv : Device :=
  { createTexture2D := fun w h => some (w * 1000 + h),
    createShaderResourceView := fun _ => none }

/-- Concrete inputs used to exercise the theorems: a 4x4 all-black managed
texture (the spec's own example). -/
def c1old : Texture :=
  { tex := 10, srv := 11, pixels := List.replicate 16 0, width := 4 }

/-- A 2x2 all-white patch image. -/
def c1img : ColorImage := { width := 2, height := 2, pixels := [1, 1, 1, 1] }

/-- A pool holding `c1old` at managed id 0. -/
def c1pool : TexturePool :=
  { pool := [(0, c1old)], native_pool := [], next_native_idx := 0 }

/-- A 2x2 texture (width 2, 4 pixels). -/
def c10old : Texture := { tex := 0, srv := 1, pixels := [10, 11, 12, 13], width := 2 }

/-- A 3x1 patch, wider than `c10old`. -/
def c10img : ColorImage := { width := 3, height := 1, pixels := [20, 21, 22] }

/-- A pool holding `c10old` at managed id 0. -/
def c10pool : TexturePool :=
  { pool := [(0, c10old)], native_pool := [], next_native_idx := 0 }

/-- A 1x1 patch aimed far outside `c10old`. -/
def c10patch : ColorImage := { width := 1, height := 1, pixels := [9] }

/-- A pool with one native entry and a spent id 0. -/
def c9pool : TexturePool :=
  { pool := [], native_pool := [(0, (7, 8))], next_native_idx := 1 }

/-- A delta that only names `User` ids. -/
def c9delta : TexturesDelta :=
  { set := [(.User 0, { pos := none, image := c10patch })], free := [.User 0] }

/-! ### Association-list laws -/

theorem findA_insertA_self {α : Type} (m : List (Nat × α)) (k : Nat) (v : α) :
    findA (insertA m k v) k = some v := by
  simp [insertA, findA]

theorem findA_eraseA_self {α : Type} (m : List (Nat × α)) (k : Nat) :
    findA (eraseA m k) k = none := by
  induction m with
  | nil => rfl
  | cons e rest ih =>
    obtain ⟨ek, ev⟩ := e
    by_cases hek : ek = k
    · simp [eraseA, hek, ih]
    · simp [eraseA, hek, findA, ih]

theorem findA_eraseA_ne {α : Type} (m : List (Nat × α)) (k k' : Nat)
    (h : k ≠ k') : findA (eraseA m k) k' = findA m k' := by
  induction m with
  | nil => rfl
  | cons e rest ih =>
    obtain ⟨ek, ev⟩ := e
    by_cases hek : ek = k
    · subst hek
      have e1 : eraseA ((ek, ev) :: rest) ek = eraseA rest ek := by
        simp [eraseA]
      have e2 : findA ((ek, ev) :: rest) k' = findA rest k' := by
        simp [findA, h]
      rw [e1, e2, ih]
    · simp only [eraseA, if_neg hek, findA]
      by_cases hek' : ek = k'
      · simp [hek']
      · simp [hek', ih]

theorem findA_insertA_ne {α : Type} (m : List (Nat × α)) (k k' : Nat) (v : α)
    (h : k ≠ k') : findA (insertA m k v) k' = findA m k' := by
  simp only [insertA, findA, if_neg h]
  exact findA_eraseA_ne m k k' h

/-! ### List `set` / `getD` laws -/

theorem getD_set_self (l : List Color32) (i : Nat) (v : Color32)
    (h : i < l.length) : (l.set i v).getD i 0 = v := by
  rw [List.getD_eq_getElem?_getD, List.getElem?_set_eq_of_lt v h]
  rfl

theorem getD_set_ne (l : List Color32) (i j : Nat) (v : Color32)
    (h : i ≠ j) : (l.set i v).getD j 0 = l.getD j 0 := by
  rw [List.getD_eq_getElem?_getD, List.getElem?_set_ne h,
    ← List.getD_eq_getElem?_getD]

/-! ### Arithmetic: uniqueness of the row/column decomposition -/

theorem decomp_unique {W a1 b1 a2 b2 : Nat} (hb1 : b1 < W) (hb2 : b2 < W)
    (h : a1 * W + b1 = a2 * W + b2) : a1 = a2 ∧ b1 = b2 := by
  have ha : a1 = a2 := by
    rcases Nat.lt_trichotomy a1 a2 with hlt | heq | hgt
    · exfalso
      have h2 : (a1 + 1) * W ≤ a2 * W := Nat.mul_le_mul_right W hlt
      rw [Nat.succ_mul] at h2
      omega
    · exact heq
    · exfalso
      have h2 : (a2 + 1) * W ≤ a1 * W := Nat.mul_le_mul_right W hgt
      rw [Nat.succ_mul] at h2
      omega
  subst ha
  omega

/-! ### The iteration domain of the overlay loop -/

theorem mem_patchPairs (yx : Nat × Nat) (h w : Nat) :
    yx ∈ patchPairs h w ↔ yx.1 < h ∧ yx.2 < w := by
  simp only [patchPairs, List.mem_flatMap, List.mem_map, List.mem_range]
  constructor
  · rintro ⟨y, hy, x, hx, rfl⟩
    exact ⟨hy, hx⟩
  · rintro ⟨h1, h2⟩
    exact ⟨yx.1, h1, yx.2, h2, rfl⟩

/-- In-bounds patch coordinates have distinct destination indices when the
patch columns fit inside the texture width. -/
theorem wholeIdx_inj {W nx ny fw fh : Nat} (hfit : nx + fw ≤ W)
    {yx yx' : Nat × Nat} (hy : yx.1 < fh) (hx : yx.2 < fw)
    (hy' : yx'.1 < fh) (hx' : yx'.2 < fw)
    (h : wholeIdx W nx ny yx = wholeIdx W nx ny yx') : yx = yx' := by
  simp only [wholeIdx, Nat.add_assoc] at h
  have hb : nx + yx.2 < W := by omega
  have hb' : nx + yx'.2 < W := by omega
  obtain ⟨h1, h2⟩ := decomp_unique hb hb' h
  have : yx.1 = yx'.1 := by omega
  have : yx.2 = yx'.2 := by omega
  obtain ⟨a, b⟩ := yx
  obtain ⟨a', b'⟩ := yx'
  simp_all

/-! ### The overlay loop, characterised pointwise -/

theorem stepWrite_some {W nx ny fw : Nat} {fp : List Color32}
    {st st' : List Color32 × List Color32} {yx : Nat × Nat}
    (h : stepWrite W nx ny fw fp st yx = some st') :
    (fracIdx fw yx < fp.length ∧ wholeIdx W nx ny yx < st.1.length ∧
      wholeIdx W nx ny yx < st.2.length) ∧
    st' = (st.1.set (wholeIdx W nx ny yx) (fp.getD (fracIdx fw yx) 0),
           st.2.set (wholeIdx W nx ny yx) (fp.getD (fracIdx fw yx) 0)) := by
  unfold stepWrite at h
  by_cases hc : fracIdx fw yx < fp.length ∧ wholeIdx W nx ny yx < st.1.length ∧
      wholeIdx W nx ny yx < st.2.length
  · rw [if_pos hc] at h
    exact ⟨hc, (Option.some_inj.mp h).symm⟩
  · rw [if_neg hc] at h
    exact absurd h (by simp)

theorem stepWrite_of_bounds {W nx ny fw : Nat} {fp : List Color32}
    {st : List Color32 × List Color32} {yx : Nat × Nat}
    (hc : fracIdx fw yx < fp.length ∧ wholeIdx W nx ny yx < st.1.length ∧
      wholeIdx W nx ny yx < st.2.length) :
    stepWrite W nx ny fw fp st yx =
      some (st.1.set (wholeIdx W nx ny yx) (fp.getD (fracIdx fw yx) 0),
            st.2.set (wholeIdx W nx ny yx) (fp.getD (fracIdx fw yx) 0)) := by
  unfold stepWrite
  rw [if_pos hc]

theorem writeAll_lengths (W nx ny fw : Nat) (fp : List Color32) :
    ∀ (L : List (Nat × Nat)) (st r : List Color32 × List Color32),
      writeAll W nx ny fw fp L st = some r →
      r.1.length = st.1.length ∧ r.2.length = st.2.length := by
  intro L
  induction L with
  | nil =>
    intro st r h
    simp only [writeAll, Option.some_inj] at h
    subst h
    exact ⟨rfl, rfl⟩
  | cons yx rest ih =>
    intro st r h
    cases hstep : stepWrite W nx ny fw fp st yx with
    | none => simp [writeAll, hstep] at h
    | some st' =>
      simp only [writeAll, hstep] at h
      obtain ⟨_, hval⟩ := stepWrite_some hstep
      have hr := ih st' r h
      subst hval
      simpa using hr

theorem writeAll_some_bounds (W nx ny fw : Nat) (fp : List Color32) :
    ∀ (L : List (Nat × Nat)) (st r : List Color32 × List Color32),
      writeAll W nx ny fw fp L st = some r →
      ∀ yx ∈ L, fracIdx fw yx < fp.length ∧
        wholeIdx W nx ny yx < st.1.length ∧ wholeIdx W nx ny yx < st.2.length := by
  intro L
  induction L with
  | nil =>
    intro st r _ yx hm
    exact absurd hm (by simp)
  | cons e rest ih =>
    intro st r h yx hm
    cases hstep : stepWrite W nx ny fw fp st e with
    | none => simp [writeAll, hstep] at h
    | some st' =>
      simp only [writeAll, hstep] at h
      obtain ⟨hc, hval⟩ := stepWrite_some hstep
      rcases List.mem_cons.mp hm with heq | hmem
      · subst heq
        exact hc
      · have := ih st' r h yx hmem
        subst hval
        simpa using this

theorem writeAll_isSome (W nx ny fw : Nat) (fp : List Color32) :
    ∀ (L : List (Nat × Nat)) (st : List Color32 × List Color32),
      (∀ yx ∈ L, fracIdx fw yx < fp.length ∧
        wholeIdx W nx ny yx < st.1.length ∧ wholeIdx W nx ny yx < st.2.length) →
      ∃ r, writeAll W nx ny fw fp L st = some r := by
  intro L
  induction L with
  | nil =>
    intro st _
    exact ⟨st, rfl⟩
  | cons e rest ih =>
    intro st hb
    have hce := hb e (by simp)
    rw [writeAll, stepWrite_of_bounds hce]
    apply ih
    intro yx hm
    have := hb yx (List.mem_cons_of_mem e hm)
    simpa using this

theorem writeAll_eq_none (W nx ny fw : Nat) (fp : List Color32)
    (L : List (Nat × Nat)) (st : List Color32 × List Color32)
    (hbad : ∃ yx ∈ L, ¬(fracIdx fw yx < fp.length ∧
      wholeIdx W nx ny yx < st.1.length ∧ wholeIdx W nx ny yx < st.2.length)) :
    writeAll W nx ny fw fp L st = none := by
  cases h : writeAll W nx ny fw fp L st with
  | none => rfl
  | some r =>
    exfalso
    obtain ⟨yx, hm, hb⟩ := hbad
    exact hb (writeAll_some_bounds W nx ny fw fp L st r h yx hm)

theorem writeAll_getD_of_ne (W nx ny fw : Nat) (fp : List Color32) (i : Nat) :
    ∀ (L : List (Nat × Nat)) (st r : List Color32 × List Color32),
      writeAll W nx ny fw fp L st = some r →
      (∀ yx ∈ L, wholeIdx W nx ny yx ≠ i) →
      r.1.getD i 0 = st.1.getD i 0 ∧ r.2.getD i 0 = st.2.getD i 0 := by
  intro L
  induction L with
  | nil =>
    intro st r h _
    simp only [writeAll, Option.some_inj] at h
    subst h
    exact ⟨rfl, rfl⟩
  | cons e rest ih =>
    intro st r h hne
    cases hstep : stepWrite W nx ny fw fp st e with
    | none => simp [writeAll, hstep] at h
    | some st' =>
      simp only [writeAll, hstep] at h
      obtain ⟨_, hval⟩ := stepWrite_some hstep
      have hrest := ih st' r h (fun yx hm => hne yx (List.mem_cons_of_mem e hm))
      have hhead : wholeIdx W nx ny e ≠ i := hne e (by simp)
      subst hval
      simp only at hrest
      rw [hrest.1, hrest.2, getD_set_ne _ _ _ _ hhead, getD_set_ne _ _ _ _ hhead]
      exact ⟨rfl, rfl⟩

theorem writeAll_getD_of_mem (W nx ny fw : Nat) (fp : List Color32) :
    ∀ (L : List (Nat × Nat)) (st r : List Color32 × List Color32)
      (yx : Nat × Nat),
      writeAll W nx ny fw fp L st = some r →
      yx ∈ L →
      (∀ yx' ∈ L, wholeIdx W nx ny yx' = wholeIdx W nx ny yx → yx' = yx) →
      r.1.getD (wholeIdx W nx ny yx) 0 = fp.getD (fracIdx fw yx) 0 ∧
      r.2.getD (wholeIdx W nx ny yx) 0 = fp.getD (fracIdx fw yx) 0 := by
  intro L
  induction L with
  | nil =>
    intro st r yx _ hm
    exact absurd hm (by simp)
  | cons e rest ih =>
    intro st r yx h hm hinj
    cases hstep : stepWrite W nx ny fw fp st e with
    | none => simp [writeAll, hstep] at h
    | some st' =>
      simp only [writeAll, hstep] at h
      obtain ⟨hc, hval⟩ := stepWrite_some hstep
      by_cases hmem : yx ∈ rest
      · exact ih st' r yx h hmem
          (fun yx' hm' he => hinj yx' (List.mem_cons_of_mem e hm') he)
      · have heq : yx = e := by
          rcases List.mem_cons.mp hm with h1 | h1
          · exact h1
          · exact absurd h1 hmem
        subst heq
        have hne : ∀ yx' ∈ rest, wholeIdx W nx ny yx' ≠ wholeIdx W nx ny yx := by
          intro yx' hm' he
          exact hmem (hinj yx' (List.mem_cons_of_mem yx hm') he ▸ hm')
        have huntouched := writeAll_getD_of_ne W nx ny fw fp
          (wholeIdx W nx ny yx) rest st' r h hne
        subst hval
        simp only at huntouched
        rw [huntouched.1, huntouched.2,
          getD_set_self _ _ _ hc.2.1, getD_set_self _ _ _ hc.2.2]
        exact ⟨rfl, rfl⟩

theorem writeAll_fst_eq_snd (W nx ny fw : Nat) (fp : List Color32) :
    ∀ (L : List (Nat × Nat)) (st r : List Color32 × List Color32),
      st.1 = st.2 →
      writeAll W nx ny fw fp L st = some r →
      r.1 = r.2 := by
  intro L
  induction L with
  | nil =>
    intro st r heq h
    simp only [writeAll, Option.some_inj] at h
    subst h
    exact heq
  | cons e rest ih =>
    intro st r heq h
    cases hstep : stepWrite W nx ny fw fp st e with
    | none => simp [writeAll, hstep] at h
    | some st' =>
      simp only [writeAll, hstep] at h
      obtain ⟨_, hval⟩ := stepWrite_some hstep
      apply ih st' r _ h
      subst hval
      simp only
      rw [heq]

/-! ### Bounds for in-range patches -/

theorem whole_lt_of_fit {W nx ny fw fh len : Nat}
    (hx : nx + fw ≤ W) (hy : (ny + fh) * W ≤ len)
    {yx : Nat × Nat} (hyy : yx.1 < fh) (hxx : yx.2 < fw) :
    wholeIdx W nx ny yx < len := by
  have h2 : (ny + yx.1 + 1) * W ≤ (ny + fh) * W :=
    Nat.mul_le_mul_right W (by omega)
  rw [Nat.succ_mul] at h2
  unfold wholeIdx
  omega

theorem frac_lt_of_mem {fw fh : Nat} {yx : Nat × Nat}
    (hyy : yx.1 < fh) (hxx : yx.2 < fw) : fracIdx fw yx < fw * fh := by
  have h1 : (yx.1 + 1) * fw ≤ fh * fw := Nat.mul_le_mul_right fw (by omega)
  rw [Nat.succ_mul] at h1
  have hc : fh * fw = fw * fh := Nat.mul_comm fh fw
  unfold fracIdx
  omega

/-! ### `update_partial`, characterised -/

theorem update_partial_spec (old : Texture) (f : ColorImage) (nx ny : Nat)
    (hwf : f.pixels.length = f.width * f.height)
    (hx : nx + f.width ≤ old.width)
    (hy : (ny + f.height) * old.width ≤ old.pixels.length) :
    ∃ tex' data,
      update_partial true old f nx ny = .ok (tex', data) ∧
      data = tex'.pixels ∧
      tex'.tex = old.tex ∧ tex'.srv = old.srv ∧ tex'.width = old.width ∧
      tex'.pixels.length = old.pixels.length ∧
      (∀ y x, y < f.height → x < f.width →
        tex'.pixels.getD ((ny + y) * old.width + nx + x) 0 =
          f.pixels.getD (y * f.width + x) 0) ∧
      (∀ i, (∀ y x, y < f.height → x < f.width →
          i ≠ (ny + y) * old.width + nx + x) →
        tex'.pixels.getD i 0 = old.pixels.getD i 0) := by
  have hbounds : ∀ yx ∈ patchPairs f.height f.width,
      fracIdx f.width yx < f.pixels.length ∧
      wholeIdx old.width nx ny yx < (old.pixels, old.pixels).1.length ∧
      wholeIdx old.width nx ny yx < (old.pixels, old.pixels).2.length := by
    intro yx hm
    obtain ⟨hy1, hx1⟩ := (mem_patchPairs yx f.height f.width).mp hm
    refine ⟨?_, ?_, ?_⟩
    · rw [hwf]
      exact frac_lt_of_mem hy1 hx1
    · exact whole_lt_of_fit hx hy hy1 hx1
    · exact whole_lt_of_fit hx hy hy1 hx1
  obtain ⟨r, hr⟩ := writeAll_isSome old.width nx ny f.width f.pixels
    (patchPairs f.height f.width) (old.pixels, old.pixels) hbounds
  obtain ⟨pix, dat⟩ := r
  have hfsteq : pix = dat := writeAll_fst_eq_snd old.width nx ny f.width
    f.pixels (patchPairs f.height f.width) (old.pixels, old.pixels)
    (pix, dat) rfl hr
  have hlen := writeAll_lengths old.width nx ny f.width f.pixels
    (patchPairs f.height f.width) (old.pixels, old.pixels) (pix, dat) hr
  refine ⟨{ old with pixels := pix }, dat, ?_, ?_, rfl, rfl, rfl, ?_, ?_, ?_⟩
  · simp [ update_partial, applyPatch, hr]
  · exact hfsteq.symm
  · exact hlen.1
  · intro y x hy1 hx1
    have hmem : ((y, x) : Nat × Nat) ∈ patchPairs f.height f.width :=
      (mem_patchPairs (y, x) f.height f.width).mpr ⟨hy1, hx1⟩
    have hinj : ∀ yx' ∈ patchPairs f.height f.width,
        wholeIdx old.width nx ny yx' = wholeIdx old.width nx ny (y, x) →
        yx' = (y, x) := by
      intro yx' hm' he
      obtain ⟨hy2, hx2⟩ := (mem_patchPairs yx' f.height f.width).mp hm'
      exact wholeIdx_inj hx hy2 hx2 hy1 hx1 he
    have := (writeAll_getD_of_mem old.width nx ny f.width f.pixels
      (patchPairs f.height f.width) (old.pixels, old.pixels) (pix, dat)
      (y, x) hr hmem hinj).1
    simpa [wholeIdx, fracIdx] using this
  · intro i hni
    have hne : ∀ yx ∈ patchPairs f.height f.width,
        wholeIdx old.width nx ny yx ≠ i := by
      intro yx hm he
      obtain ⟨hy1, hx1⟩ := (mem_patchPairs yx f.height f.width).mp hm
      exact hni yx.1 yx.2 hy1 hx1 (by simpa [wholeIdx] using he.symm)
    have := (writeAll_getD_of_ne old.width nx ny f.width f.pixels i
      (patchPairs f.height f.width) (old.pixels, old.pixels) (pix, dat)
      hr hne).1
    simpa using this

theorem update_partial_panic_of_oob (old : Texture) (f : ColorImage)
    (nx ny : Nat)
    (hbad : ∃ y, y < f.height ∧ ∃ x, x < f.width ∧
      old.pixels.length ≤ (ny + y) * old.width + nx + x) :
    update_partial true old f nx ny = .panic := by
  obtain ⟨y, hy1, x, hx1, hge⟩ := hbad
  have hnone : writeAll old.width nx ny f.width f.pixels
      (patchPairs f.height f.width) (old.pixels, old.pixels) = none := by
    apply writeAll_eq_none
    refine ⟨(y, x), (mem_patchPairs (y, x) f.height f.width).mpr ⟨hy1, hx1⟩, ?_⟩
    have he : wholeIdx old.width nx ny (y, x) = (ny + y) * old.width + nx + x :=
      rfl
    intro hc
    rw [he] at hc
    simp only [Prod.fst, Prod.snd] at hc
    omega
  simp [ update_partial, applyPatch, hnone]

theorem update_partial_ok_of_lt (old : Texture) (f : ColorImage)
    (nx ny : Nat) (hwf : f.pixels.length = f.width * f.height)
    (hall : ∀ y x, y < f.height → x < f.width →
      (ny + y) * old.width + nx + x < old.pixels.length) :
    ∃ tex' data, update_partial true old f nx ny = .ok (tex', data) := by
  have hbounds : ∀ yx ∈ patchPairs f.height f.width,
      fracIdx f.width yx < f.pixels.length ∧
      wholeIdx old.width nx ny yx < (old.pixels, old.pixels).1.length ∧
      wholeIdx old.width nx ny yx < (old.pixels, old.pixels).2.length := by
    intro yx hm
    obtain ⟨hy1, hx1⟩ := (mem_patchPairs yx f.height f.width).mp hm
    refine ⟨?_, ?_, ?_⟩
    · rw [hwf]
      exact frac_lt_of_mem hy1 hx1
    · exact hall yx.1 yx.2 hy1 hx1
    · exact hall yx.1 yx.2 hy1 hx1
  obtain ⟨r, hr⟩ := writeAll_isSome old.width nx ny f.width f.pixels
    (patchPairs f.height f.width) (old.pixels, old.pixels) hbounds
  obtain ⟨pix, dat⟩ := r
  exact ⟨{ old with pixels := pix }, dat, by simp [ update_partial, applyPatch, hr]⟩

/-! ### Unfolding `update` on singleton deltas -/

theorem update_singleton_partial_found (p : TexturePool) (device : Device)
    (ctxMapOk : Bool) (id nx ny : Nat) (f : ColorImage) (old tex' : Texture)
    (data : List Color32)
    (hfind : findA p.pool id = some old)
    (hup : update_partial ctxMapOk old f nx ny = .ok (tex', data)) :
    p.update device ctxMapOk
        { set := [(.Managed id, { pos := some (nx, ny), image := f })],
          free := [] } =
      .ok { pool := { p with pool := insertA p.pool id tex' },
            warned := [], devCalls := 0 } := by
  simp [TexturePool.update, managedSets, processSet, updateStep, hfind, hup,
    freeManaged]

theorem update_singleton_partial_missing (p : TexturePool) (device : Device)
    (ctxMapOk : Bool) (id nx ny : Nat) (f : ColorImage)
    (hfind : findA p.pool id = none) :
    p.update device ctxMapOk
        { set := [(.Managed id, { pos := some (nx, ny), image := f })],
          free := [] } =
      .ok { pool := p, warned := [id], devCalls := 0 } := by
  simp [TexturePool.update, managedSets, processSet, updateStep, hfind,
    freeManaged]

theorem update_singleton_full (p : TexturePool) (device : Device)
    (ctxMapOk : Bool) (id : Nat) (f : ColorImage) (t : Texture)
    (hw : 0 < f.width) (hh : 0 < f.height)
    (hc : create_texture device f = .ok t) :
    p.update device ctxMapOk
        { set := [(.Managed id, { pos := none, image := f })], free := [] } =
      .ok { pool := { p with pool := insertA p.pool id t },
            warned := [], devCalls := 1 } := by
  simp [TexturePool.update, managedSets, processSet, updateStep, hw, hh, hc,
    freeManaged]

theorem update_singleton_full_zero (p : TexturePool) (device : Device)
    (ctxMapOk : Bool) (id : Nat) (f : ColorImage)
    (hz : f.width = 0 ∨ f.height = 0) :
    p.update device ctxMapOk
        { set := [(.Managed id, { pos := none, image := f })], free := [] } =
      .ok { pool := p, warned := [], devCalls := 0 } := by
  have hnot : ¬(0 < f.width ∧ 0 < f.height) := by omega
  simp [TexturePool.update, managedSets, processSet, updateStep, hnot,
    freeManaged]

theorem update_free_single (p : TexturePool) (device : Device)
    (ctxMapOk : Bool) (id : Nat) :
    p.update device ctxMapOk { set := [], free := [.Managed id] } =
      .ok { pool := { p with pool := eraseA p.pool id },
            warned := [], devCalls := 0 } := by
  simp [TexturePool.update, managedSets, processSet, freeManaged]

/-! ### `update` never touches the native registry -/

theorem updateStep_native (device : Device) (ctx : Bool) (acc : UpdateOut)
    (e : Nat × ImageDelta) (acc' : UpdateOut)
    (h : updateStep device ctx acc e = .ok acc') :
    acc'.pool.native_pool = acc.pool.native_pool ∧
    acc'.pool.next_native_idx = acc.pool.next_native_idx := by
  unfold updateStep at h
  split at h
  · split at h
    · split at h
      · cases h
        exact ⟨rfl, rfl⟩
      · exact absurd h (by simp)
      · exact absurd h (by simp)
    · cases h
      exact ⟨rfl, rfl⟩
  · split at h
    · split at h
      · cases h
        exact ⟨rfl, rfl⟩
      · exact absurd h (by simp)
      · exact absurd h (by simp)
    · cases h
      exact ⟨rfl, rfl⟩

theorem processSet_native (device : Device) (ctx : Bool) :
    ∀ (L : List (Nat × ImageDelta)) (acc acc' : UpdateOut),
      processSet device ctx L acc = .ok acc' →
      acc'.pool.native_pool = acc.pool.native_pool ∧
      acc'.pool.next_native_idx = acc.pool.next_native_idx := by
  intro L
  induction L with
  | nil =>
    intro acc acc' h
    simp only [processSet] at h
    cases h
    exact ⟨rfl, rfl⟩
  | cons e rest ih =>
    intro acc acc' h
    cases hstep : updateStep device ctx acc e with
    | ok acc1 =>
      simp only [processSet, hstep] at h
      have h1 := updateStep_native device ctx acc e acc1 hstep
      have h2 := ih acc1 acc' h
      exact ⟨h2.1.trans h1.1, h2.2.trans h1.2⟩
    | err => simp [processSet, hstep] at h
    | panic => simp [processSet, hstep] at h

theorem freeManaged_native (free : List TextureId) :
    ∀ (p : TexturePool),
      (freeManaged p free).native_pool = p.native_pool ∧
      (freeManaged p free).next_native_idx = p.next_native_idx := by
  induction free with
  | nil =>
    intro p
    exact ⟨rfl, rfl⟩
  | cons tid rest ih =>
    intro p
    cases tid with
    | Managed id => exact ih { p with pool := eraseA p.pool id }
    | User id => exact ih p

theorem update_native_inv (p : TexturePool) (device : Device) (ctx : Bool)
    (delta : TexturesDelta) (out : UpdateOut)
    (h : p.update device ctx delta = .ok out) :
    out.pool.native_pool = p.native_pool ∧
    out.pool.next_native_idx = p.next_native_idx := by
  unfold TexturePool.update at h
  cases hps : processSet device ctx (managedSets delta.set)
      { pool := p, warned := [], devCalls := 0 } with
  | ok acc =>
    rw [hps] at h
    cases h
    have h1 := processSet_native device ctx (managedSets delta.set)
      { pool := p, warned := [], devCalls := 0 } acc hps
    have h2 := freeManaged_native delta.free acc.pool
    exact ⟨h2.1.trans h1.1, h2.2.trans h1.2⟩
  | err => rw [hps] at h; exact absurd h (by simp)
  | panic => rw [hps] at h; exact absurd h (by simp)

/-! ### Native registration / removal, characterised -/

theorem register_eq (p : TexturePool) (device : Device) (t s : Nat)
    (hsrv : device.createShaderResourceView t = some s) :
    p.register_native_texture device t =
      .ok ({ p with
              next_native_idx := p.next_native_idx + 1,
              native_pool := insertA p.native_pool p.next_native_idx (t, s) },
           .User p.next_native_idx) := by
  simp [TexturePool.register_native_texture, hsrv]

theorem register_panic (p : TexturePool) (device : Device) (t : Nat)
    (hsrv : device.createShaderResourceView t = none) :
    p.register_native_texture device t = .panic := by
  simp [TexturePool.register_native_texture, hsrv]

theorem runOps_ids (device : Device) :
    ∀ (ops : List NativeOp) (p q : TexturePool) (ids : List TextureId),
      runOps device ops p = some (q, ids) →
      ids = (List.range' p.next_native_idx (countRegs ops)).map TextureId.User ∧
      q.next_native_idx = p.next_native_idx + countRegs ops := by
  intro ops
  induction ops with
  | nil =>
    intro p q ids h
    simp only [runOps, Option.some_inj, Prod.mk.injEq] at h
    obtain ⟨h1, h2⟩ := h
    subst h1
    subst h2
    simp [countRegs]
  | cons op rest ih =>
    intro p q ids h
    cases op with
    | reg t =>
      cases hsrv : device.createShaderResourceView t with
      | none =>
        simp [runOps, register_panic p device t hsrv] at h
      | some s =>
        simp only [runOps, register_eq p device t s hsrv] at h
        cases hrun : runOps device rest
            { p with
              next_native_idx := p.next_native_idx + 1,
              native_pool := insertA p.native_pool p.next_native_idx (t, s) } with
        | none => rw [hrun] at h; exact absurd h (by simp)
        | some pr =>
          obtain ⟨q', ids'⟩ := pr
          rw [hrun] at h
          simp only [Option.some_inj, Prod.mk.injEq] at h
          obtain ⟨h1, h2⟩ := h
          have ih' := ih _ q' ids' hrun
          simp only at ih'
          subst h1
          subst h2
          constructor
          · have hrg : List.range' p.next_native_idx (countRegs rest + 1) =
                p.next_native_idx :: List.range' (p.next_native_idx + 1)
                  (countRegs rest) := rfl
            rw [countRegs, hrg, List.map_cons, ih'.1]
          · rw [countRegs]
            omega
    | rem tid =>
      cases tid with
      | Managed i =>
        simp [runOps, TexturePool.remove_native_texture] at h
      | User i =>
        simp only [runOps, TexturePool.remove_native_texture] at h
        have ih' := ih _ q ids h
        simp only at ih'
        rw [countRegs]
        exact ih'

/-! ### `create_texture`, characterised -/

theorem create_texture_ok_inv (device : Device) (f : ColorImage) (t : Texture)
    (h : create_texture device f = .ok t) :
    t.pixels = f.pixels ∧ t.width = f.width := by
  cases h1 : device.createTexture2D f.width f.height with
  | none => simp [create_texture, h1] at h
  | some tex =>
    cases h2 : device.createShaderResourceView tex with
    | none => simp [create_texture, h1, h2] at h
    | some srv =>
      simp only [create_texture, h1, h2] at h
      cases h
      exact ⟨rfl, rfl⟩

theorem create_texture_ne_panic (device : Device) (f : ColorImage) :
    create_texture device f ≠ .panic := by
  cases h1 : device.createTexture2D f.width f.height with
  | none => simp [create_texture, h1]
  | some tex =>
    cases h2 : device.createShaderResourceView tex with
    | none => simp [create_texture, h1, h2]
    | some srv => simp [create_texture, h1, h2]

theorem update_singleton_full_err (p : TexturePool) (device : Device)
    (ctxMapOk : Bool) (id : Nat) (f : ColorImage)
    (hw : 0 < f.width) (hh : 0 < f.height)
    (hc : create_texture device f = .err) :
    p.update device ctxMapOk
        { set := [(.Managed id, { pos := none, image := f })], free := [] } =
      .err := by
  simp [TexturePool.update, managedSets, processSet, updateStep, hw, hh, hc]

/-! ### Sequences of full replaces -/

theorem runReplaces_last (device : Device) (ctxMapOk : Bool) (id : Nat) :
    ∀ (init : List ColorImage) (lastImg : ColorImage) (p q : TexturePool),
      runReplaces device ctxMapOk id (init ++ [lastImg]) p = .ok q →
      0 < lastImg.width → 0 < lastImg.height →
      ∃ t, findA q.pool id = some t ∧ t.pixels = lastImg.pixels ∧
        t.width = lastImg.width := by
  intro init
  induction init with
  | nil =>
    intro lastImg p q h hw hh
    cases hct : create_texture device lastImg with
    | ok t =>
      have hu := update_singleton_full p device ctxMapOk id lastImg t hw hh hct
      simp only [List.nil_append, runReplaces, hu] at h
      cases h
      refine ⟨t, ?_, ?_⟩
      · exact findA_insertA_self p.pool id t
      · exact create_texture_ok_inv device lastImg t hct
    | err =>
      have hu := update_singleton_full_err p device ctxMapOk id lastImg hw hh hct
      simp [runReplaces, hu] at h
    | panic =>
      exact absurd hct (create_texture_ne_panic device lastImg)
  | cons i init' ih =>
    intro lastImg p q h hw hh
    cases hu : p.update device ctxMapOk
        { set := [(.Managed id, { pos := none, image := i })], free := [] } with
    | ok out =>
      simp only [List.cons_append, runReplaces, hu] at h
      exact ih lastImg out.pool q h hw hh
    | err =>
      simp [runReplaces, hu] at h
    | panic =>
      simp [runReplaces, hu] at h

/-! ## The claims -/

/-- C2 counterexample: with a device whose shader-resource-view creation
fails, `register_native_texture` does not propagate an error to its caller —
it panics (the source calls `.unwrap()` on the `CreateShaderResourceView`
result, and its return type `TextureId` cannot carry an error). -/
theorem claim_C2_counterexample :
    TexturePool.new.register_native_texture devBadSrv 3 = .panic ∧
    TexturePool.new.register_native_texture devBadSrv 3 ≠ .err := by
  constructor
  · rfl
  · decide

/-- C2 (amended): when shader-resource-view creation fails on the device,
`register_native_texture` panics (fail-fast via `unwrap`), rather than
returning an error; on success it allocates the next native id, stores the
`(texture, view)` pair, and returns a `User`-tagged id. -/
theorem claim_C2_register_behaviour (p : TexturePool) (device : Device)
    (t : Nat) :
    (device.createShaderResourceView t = none →
      p.register_native_texture device t = .panic) ∧
    (∀ s, device.createShaderResourceView t = some s →
      p.register_native_texture device t =
        .ok ({ p with
                next_native_idx := p.next_native_idx + 1,
                native_pool :=
                  insertA p.native_pool p.next_native_idx (t, s) },
             .User p.next_native_idx)) := by
  constructor
  · intro h
    exact register_panic p device t h
  · intro s h
    exact register_eq p device t s h

/-- Witness for C2: both branches exercised at concrete inputs. -/
theorem claim_C2_register_behaviour_witness :
    devBadSrv.createShaderResourceView 3 = none ∧
    TexturePool.new.register_native_texture devBadSrv 3 = .panic ∧
    devOk.createShaderResourceView 3 = some 4 ∧
    TexturePool.new.register_native_texture devOk 3 =
      .ok ({ TexturePool.new with
              next_native_idx := TexturePool.new.next_native_idx + 1,
              native_pool :=
                insertA TexturePool.new.native_pool
                  TexturePool.new.next_native_idx (3, 4) },
           .User TexturePool.new.next_native_idx) :=
  ⟨rfl,
   (claim_C2_register_behaviour TexturePool.new devBadSrv 3).1 rfl,
   rfl,
   (claim_C2_register_behaviour TexturePool.new devOk 3).2 4 rfl⟩

/-- C4: after a free-delta removes a managed id, `get_srv` on that id is
empty, and a subsequent partial patch on that id is dropped with a warning
(the warned-id list records it) while leaving the pool state unchanged, and
the whole update still succeeds. -/
theorem claim_C4_free_then_patch (p : TexturePool) (device : Device)
    (ctxMapOk : Bool) (id nx ny : Nat) (f : ColorImage) :
    ∃ q : TexturePool,
      p.update device ctxMapOk { set := [], free := [.Managed id] } =
        .ok { pool := q, warned := [], devCalls := 0 } ∧
      q.get_srv (.Managed id) = none ∧
      q.update device ctxMapOk
          { set := [(.Managed id, { pos := some (nx, ny), image := f })],
            free := [] } =
        .ok { pool := q, warned := [id], devCalls := 0 } := by
  refine ⟨{ p with pool := eraseA p.pool id },
    update_free_single p device ctxMapOk id, ?_, ?_⟩
  · simp [TexturePool.get_srv, findA_eraseA_self]
  · exact update_singleton_partial_missing _ device ctxMapOk id nx ny f
      (findA_eraseA_self p.pool id)

/-- C6: removing a native texture with a `Managed`-tagged id always panics
("Cannot manually remove managed textures"); it never returns. -/
theorem claim_C6_remove_managed_panics (p : TexturePool) (id : Nat) :
    p.remove_native_texture (.Managed id) = .panic := rfl

/-- C8: a full-replace delta whose width or height is zero is a complete
no-op: the per-entry step returns its accumulator unchanged, and a singleton
update leaves the pool untouched, logs nothing, and attempts no device
creation call. -/
theorem claim_C8_zero_area_noop (p : TexturePool) (device : Device)
    (ctxMapOk : Bool) (id : Nat) (f : ColorImage) (acc : UpdateOut)
    (hz : f.width = 0 ∨ f.height = 0) :
    updateStep device ctxMapOk acc (id, { pos := none, image := f }) =
      .ok acc ∧
    p.update device ctxMapOk
        { set := [(.Managed id, { pos := none, image := f })], free := [] } =
      .ok { pool := p, warned := [], devCalls := 0 } := by
  constructor
  · have hnot : ¬(0 < f.width ∧ 0 < f.height) := by omega
    simp [updateStep, hnot]
  · exact update_singleton_full_zero p device ctxMapOk id f hz

/-- Witness for C8: a 0x3 image is skipped. -/
theorem claim_C8_zero_area_noop_witness :
    ((⟨0, 3, []⟩ : ColorImage).width = 0 ∨
      (⟨0, 3, []⟩ : ColorImage).height = 0) ∧
    (updateStep devOk true { pool := c9pool, warned := [], devCalls := 0 }
        (5, { pos := none, image := ⟨0, 3, []⟩ }) =
      .ok { pool := c9pool, warned := [], devCalls := 0 } ∧
    c9pool.update devOk true
        { set := [(.Managed 5, { pos := none, image := ⟨0, 3, []⟩ })],
          free := [] } =
      .ok { pool := c9pool, warned := [], devCalls := 0 }) :=
  ⟨Or.inl rfl,
   claim_C8_zero_area_noop c9pool devOk true 5 ⟨0, 3, []⟩
     { pool := c9pool, warned := [], devCalls := 0 } (Or.inl rfl)⟩

/-- C9: `update` drops `User`-tagged entries from the set list and ignores
`User`-tagged ids in the free list, and (whatever the delta contains) a
successful update never creates, modifies or removes native-registry entries
and never changes the native id counter. -/
theorem claim_C9_update_ignores_native (p : TexturePool) (device : Device)
    (ctxMapOk : Bool) (delta : TexturesDelta) (out : UpdateOut) (i : Nat)
    (d : ImageDelta)
    (h : p.update device ctxMapOk delta = .ok out) :
    managedSets ((.User i, d) :: delta.set) = managedSets delta.set ∧
    freeManaged p (.User i :: delta.free) = freeManaged p delta.free ∧
    out.pool.native_pool = p.native_pool ∧
    out.pool.next_native_idx = p.next_native_idx := by
  refine ⟨by simp [managedSets], rfl, ?_, ?_⟩
  · exact (update_native_inv p device ctxMapOk delta out h).1
  · exact (update_native_inv p device ctxMapOk delta out h).2

/-- Witness for C9: a delta naming only `User` ids leaves the pool's native
registry untouched. -/
theorem claim_C9_update_ignores_native_witness :
    c9pool.update devOk true c9delta =
      .ok { pool := c9pool, warned := [], devCalls := 0 } ∧
    (managedSets ((.User 2, { pos := none, image := c10patch }) ::
        c9delta.set) = managedSets c9delta.set ∧
      freeManaged c9pool (.User 2 :: c9delta.free) =
        freeManaged c9pool c9delta.free ∧
      ({ pool := c9pool, warned := [], devCalls := 0 } :
          UpdateOut).pool.native_pool = c9pool.native_pool ∧
      ({ pool := c9pool, warned := [], devCalls := 0 } :
          UpdateOut).pool.next_native_idx = c9pool.next_native_idx) :=
  ⟨rfl,
   claim_C9_update_ignores_native c9pool devOk true c9delta
     { pool := c9pool, warned := [], devCalls := 0 } 2
     { pos := none, image := c10patch } rfl⟩

/-- C1: a partial patch via `update` on an existing managed texture, with the
patch rectangle inside the texture, succeeds; the final mapped GPU buffer
equals the final shadow array (the whole shadow was copied in, then both got
the same overlay writes); pixels at patch positions
`(ny + y) * width + nx + x` equal the patch's source pixels and all other
positions keep their pre-patch values. -/
theorem claim_C1_partial_patch (p : TexturePool) (device : Device)
    (id nx ny : Nat) (f : ColorImage) (old : Texture)
    (hfind : findA p.pool id = some old)
    (hwf : f.pixels.length = f.width * f.height)
    (hx : nx + f.width ≤ old.width)
    (hy : (ny + f.height) * old.width ≤ old.pixels.length) :
    ∃ tex' data,
      update_partial true old f nx ny = .ok (tex', data) ∧
      p.update device true
          { set := [(.Managed id, { pos := some (nx, ny), image := f })],
            free := [] } =
        .ok { pool := { p with pool := insertA p.pool id tex' },
              warned := [], devCalls := 0 } ∧
      data = tex'.pixels ∧
      tex'.width = old.width ∧
      tex'.pixels.length = old.pixels.length ∧
      (∀ y x, y < f.height → x < f.width →
        tex'.pixels.getD ((ny + y) * old.width + nx + x) 0 =
          f.pixels.getD (y * f.width + x) 0) ∧
      (∀ i, (∀ y x, y < f.height → x < f.width →
          i ≠ (ny + y) * old.width + nx + x) →
        tex'.pixels.getD i 0 = old.pixels.getD i 0) := by
  obtain ⟨tex', data, hup, hdata, _, _, hw, hlen, hin, hout⟩ :=
    update_partial_spec old f nx ny hwf hx hy
  exact ⟨tex', data, hup,
    update_singleton_partial_found p device true id nx ny f old tex' data
      hfind hup,
    hdata, hw, hlen, hin, hout⟩

/-- Witness for C1: the spec's own example, a 2x2 white patch at offset
(1, 1) into a 4x4 black texture. -/
theorem claim_C1_partial_patch_witness :
    findA c1pool.pool 0 = some c1old ∧
    c1img.pixels.length = c1img.width * c1img.height ∧
    1 + c1img.width ≤ c1old.width ∧
    (1 + c1img.height) * c1old.width ≤ c1old.pixels.length ∧
    (∃ tex' data,
      update_partial true c1old c1img 1 1 = .ok (tex', data) ∧
      c1pool.update devOk true
          { set := [(.Managed 0, { pos := some (1, 1), image := c1img })],
            free := [] } =
        .ok { pool := { c1pool with pool := insertA c1pool.pool 0 tex' },
              warned := [], devCalls := 0 } ∧
      data = tex'.pixels ∧
      tex'.width = c1old.width ∧
      tex'.pixels.length = c1old.pixels.length ∧
      (∀ y x, y < c1img.height → x < c1img.width →
        tex'.pixels.getD ((1 + y) * c1old.width + 1 + x) 0 =
          c1img.pixels.getD (y * c1img.width + x) 0) ∧
      (∀ i, (∀ y x, y < c1img.height → x < c1img.width →
          i ≠ (1 + y) * c1old.width + 1 + x) →
        tex'.pixels.getD i 0 = c1old.pixels.getD i 0)) :=
  ⟨rfl, rfl, by decide, by decide,
   claim_C1_partial_patch c1pool devOk 0 1 1 c1img c1old rfl rfl
     (by decide) (by decide)⟩

/-- C3: after a sequence of single-entry full-replace updates on the same
managed id (all with non-zero dimensions), the pool's entry for that id holds
exactly the last replace's pixel buffer and width — no residue from earlier
replaces. -/
theorem claim_C3_full_replace_last (device : Device) (ctxMapOk : Bool)
    (id : Nat) (init : List ColorImage) (lastImg : ColorImage)
    (p q : TexturePool)
    (hall : ∀ img ∈ init ++ [lastImg], 0 < img.width ∧ 0 < img.height)
    (hrun : runReplaces device ctxMapOk id (init ++ [lastImg]) p = .ok q) :
    ∃ t, findA q.pool id = some t ∧ t.pixels = lastImg.pixels ∧
      t.width = lastImg.width := by
  have hl := hall lastImg (by simp)
  exact runReplaces_last device ctxMapOk id init lastImg p q hrun hl.1 hl.2

/-- Witness for C3: replace id 0 with a 1x1 image [5], then with [7]. -/
theorem claim_C3_full_replace_last_witness :
    (∀ img ∈ ([⟨1, 1, [5]⟩] ++ [⟨1, 1, [7]⟩] : List ColorImage),
      0 < img.width ∧ 0 < img.height) ∧
    runReplaces devOk true 0 ([⟨1, 1, [5]⟩] ++ [⟨1, 1, [7]⟩])
      TexturePool.new = .ok ⟨[(0, ⟨1001, 1002, [7], 1⟩)], [], 0⟩ ∧
    (∃ t, findA (⟨[(0, ⟨1001, 1002, [7], 1⟩)], [], 0⟩ : TexturePool).pool 0 =
        some t ∧
      t.pixels = [7] ∧ t.width = 1) :=
  ⟨by decide, by decide,
   claim_C3_full_replace_last devOk true 0 [⟨1, 1, [5]⟩] ⟨1, 1, [7]⟩
     TexturePool.new ⟨[(0, ⟨1001, 1002, [7], 1⟩)], [], 0⟩
     (by decide) (by decide)⟩

/-- C5: from a fresh pool, any successful sequence of registrations and
removals yields registration ids that are exactly `User 0, User 1, ...` in
order — the counter increments once per registration, is never decremented,
and removals never renumber or allow reuse. -/
theorem claim_C5_native_ids (device : Device) (ops : List NativeOp)
    (q : TexturePool) (ids : List TextureId)
    (h : runOps device ops TexturePool.new = some (q, ids)) :
    ids = (List.range (countRegs ops)).map TextureId.User ∧
    q.next_native_idx = countRegs ops := by
  have h2 := runOps_ids device ops TexturePool.new q ids h
  simp only [TexturePool.new] at h2
  rw [List.range_eq_range']
  exact ⟨h2.1, by omega⟩

/-- Witness for C5: register, remove, register — the second registration
still gets the fresh id 1. -/
theorem claim_C5_native_ids_witness :
    runOps devOk [NativeOp.reg 5, NativeOp.rem (.User 0), NativeOp.reg 7]
      TexturePool.new = some (⟨[], [(1, (7, 8))], 2⟩, [.User 0, .User 1]) ∧
    ([TextureId.User 0, .User 1] =
      (List.range (countRegs
        [NativeOp.reg 5, NativeOp.rem (.User 0), NativeOp.reg 7])).map
          TextureId.User ∧
    (⟨[], [(1, (7, 8))], 2⟩ : TexturePool).next_native_idx =
      countRegs [NativeOp.reg 5, NativeOp.rem (.User 0), NativeOp.reg 7]) :=
  ⟨by decide,
   claim_C5_native_ids devOk
     [NativeOp.reg 5, NativeOp.rem (.User 0), NativeOp.reg 7]
     ⟨[], [(1, (7, 8))], 2⟩ [.User 0, .User 1] (by decide)⟩

/-- C7: registering a texture and removing it with the returned `User` id
gives back exactly the registered handle; a second removal of the same id,
or removal of any absent `User` id, returns an empty result (not a
failure). -/
theorem claim_C7_roundtrip (p : TexturePool) (device : Device) (t s : Nat)
    (hsrv : device.createShaderResourceView t = some s) :
    p.register_native_texture device t =
      .ok ({ p with
              next_native_idx := p.next_native_idx + 1,
              native_pool := insertA p.native_pool p.next_native_idx (t, s) },
           .User p.next_native_idx) ∧
    ({ p with
        next_native_idx := p.next_native_idx + 1,
        native_pool := insertA p.native_pool p.next_native_idx (t, s) }
        : TexturePool).remove_native_texture (.User p.next_native_idx) =
      .ok ({ p with
              next_native_idx := p.next_native_idx + 1,
              native_pool :=
                eraseA (insertA p.native_pool p.next_native_idx (t, s))
                  p.next_native_idx },
           some t) ∧
    ({ p with
        next_native_idx := p.next_native_idx + 1,
        native_pool :=
          eraseA (insertA p.native_pool p.next_native_idx (t, s))
            p.next_native_idx } : TexturePool).remove_native_texture
        (.User p.next_native_idx) =
      .ok ({ p with
              next_native_idx := p.next_native_idx + 1,
              native_pool :=
                eraseA (eraseA (insertA p.native_pool p.next_native_idx
                  (t, s)) p.next_native_idx) p.next_native_idx },
           none) ∧
    (∀ j, findA p.native_pool j = none →
      p.remove_native_texture (.User j) =
        .ok ({ p with native_pool := eraseA p.native_pool j }, none)) := by
  refine ⟨register_eq p device t s hsrv, ?_, ?_, ?_⟩
  · simp [TexturePool.remove_native_texture, findA_insertA_self]
  · simp [TexturePool.remove_native_texture, findA_eraseA_self]
  · intro j hj
    simp [TexturePool.remove_native_texture, hj]

/-- Witness for C7: register handle 5 on a fresh pool, remove it twice. -/
theorem claim_C7_roundtrip_witness :
    devOk.createShaderResourceView 5 = some 6 ∧
    (TexturePool.new.register_native_texture devOk 5 =
        .ok (⟨[], [(0, (5, 6))], 1⟩, .User 0) ∧
      (⟨[], [(0, (5, 6))], 1⟩ : TexturePool).remove_native_texture
          (.User 0) = .ok (⟨[], [], 1⟩, some 5) ∧
      (⟨[], [], 1⟩ : TexturePool).remove_native_texture (.User 0) =
        .ok (⟨[], [], 1⟩, none) ∧
      (∀ j, findA TexturePool.new.native_pool j = none →
        TexturePool.new.remove_native_texture (.User j) =
          .ok (⟨[], [], 0⟩, none))) :=
  ⟨rfl, claim_C7_roundtrip TexturePool.new devOk 5 6 rfl⟩

/-- Helper: a panicking partial patch propagates through `update`. -/
theorem update_singleton_partial_panic (p : TexturePool) (device : Device)
    (id nx ny : Nat) (f : ColorImage) (old : Texture)
    (hfind : findA p.pool id = some old)
    (hup : update_partial true old f nx ny = .panic) :
    p.update device true
        { set := [(.Managed id, { pos := some (nx, ny), image := f })],
          free := [] } = .panic := by
  simp [TexturePool.update, managedSets, processSet, updateStep, hfind, hup]

/-- C10: the partial-update path never validates the patch rectangle: if any
patch pixel's linear destination index reaches the shadow array's length the
update panics instead of erroring; if all linear indices are in range the
patch is accepted even when its columns overrun the texture width — and the
overrunning pixels wrap into the following row (concretely, patching a 3x1
image into a 2-wide, 4-pixel texture at (0,0) lands the third patch pixel at
linear index 2, i.e. row 1, column 0). -/
theorem claim_C10_no_validation :
    (∀ (p : TexturePool) (device : Device) (id nx ny : Nat) (f : ColorImage)
        (old : Texture),
      findA p.pool id = some old →
      (∃ y, y < f.height ∧ ∃ x, x < f.width ∧
        old.pixels.length ≤ (ny + y) * old.width + nx + x) →
      p.update device true
          { set := [(.Managed id, { pos := some (nx, ny), image := f })],
            free := [] } = .panic) ∧
    (∀ (old : Texture) (f : ColorImage) (nx ny : Nat),
      f.pixels.length = f.width * f.height →
      (∀ y x, y < f.height → x < f.width →
        (ny + y) * old.width + nx + x < old.pixels.length) →
      ∃ tex' data, update_partial true old f nx ny = .ok (tex', data)) ∧
    update_partial true c10old c10img 0 0 =
      .ok ({ c10old with pixels := [20, 21, 22, 13] }, [20, 21, 22, 13]) := by
  refine ⟨?_, ?_, ?_⟩
  · intro p device id nx ny f old hfind hbad
    exact update_singleton_partial_panic p device id nx ny f old hfind
      (update_partial_panic_of_oob old f nx ny hbad)
  · intro old f nx ny hwf hall
    exact update_partial_ok_of_lt old f nx ny hwf hall
  · decide

/-- Witness for C10: a 1x1 patch at offset (10, 10) into a 2x2 texture
panics the whole update. -/
theorem claim_C10_no_validation_witness :
    findA c10pool.pool 0 = some c10old ∧
    (∃ y, y < c10patch.height ∧ ∃ x, x < c10patch.width ∧
      c10old.pixels.length ≤ (10 + y) * c10old.width + 10 + x) ∧
    c10pool.update devOk true
        { set := [(.Managed 0, { pos := some (10, 10), image := c10patch })],
          free := [] } = .panic :=
  ⟨rfl, ⟨0, by decide, 0, by decide, by decide⟩,
   claim_C10_no_validation.1 c10pool devOk 0 10 10 c10patch c10old rfl
     ⟨0, by decide, 0, by decide, by decide⟩⟩
